import Mathlib

/-!
Verification development for the Pycons repository.

This file gives a shallow embedding, in Lean, of the pure parts of the
Pycons source (src/pycons/iconify/api.py, src/pycons/utils.py,
src/pycons/providers.py) and proves or refutes the specification claims
about them.  Python strings are modelled as Lean strings (lists of
characters), Python exceptions as an explicit error type threaded through
an Except monad, and the network as an explicit oracle value passed to the
functions that fetch.
-/

set_option maxRecDepth 4000
set_option linter.unusedVariables false

/-- Python exception values raised by the embedded code. -/
inductive PyErr where
  | valueError (msg : String)
  | indexError
  | keyError (k : String)
  | typeError (msg : String)
deriving DecidableEq, Repr

/-! ## Python string primitives

Small helpers mirroring the Python string operations used by the source.
All of them are structural recursions so that concrete runs reduce by rfl.
-/

/-- Boolean test that the first list is a prefix of the second. -/
def startsWithList : List Char → List Char → Bool
  | [], _ => true
  | _ :: _, [] => false
  | p :: ps, c :: cs => p == c && startsWithList ps cs

/-- Core of Python str.replace for a nonempty pattern p0 :: ps, with fuel.
When the fuel is exhausted the remaining input is returned unchanged; the
wrapper always supplies enough fuel. -/
def pyReplaceAux (p0 : Char) (ps rep : List Char) : Nat → List Char → List Char
  | _, [] => []
  | 0, l => l
  | fuel + 1, c :: rest =>
    if startsWithList (p0 :: ps) (c :: rest) then
      rep ++ pyReplaceAux p0 ps rep fuel (List.drop ps.length rest)
    else
      c :: pyReplaceAux p0 ps rep fuel rest

/-- Python str.replace(pat, rep) on character lists (empty pattern returns
the input unchanged; the source never calls replace with an empty
pattern). -/
def pyReplaceL (pat rep l : List Char) : List Char :=
  match pat with
  | [] => l
  | p0 :: ps => pyReplaceAux p0 ps rep l.length l

/-- Python str.replace on strings. -/
def pyReplace (s pat rep : String) : String :=
  ⟨pyReplaceL pat.data rep.data s.data⟩

/-- Python str.lower for one ASCII character (the inputs handled by the
source are ASCII). -/
def pyToLowerChar (c : Char) : Char :=
  if 65 ≤ c.toNat && c.toNat ≤ 90 then Char.ofNat (c.toNat + 32) else c

/-- Python str.upper for one ASCII character. -/
def pyToUpperChar (c : Char) : Char :=
  if 97 ≤ c.toNat && c.toNat ≤ 122 then Char.ofNat (c.toNat - 32) else c

/-- Python str.lower on strings (ASCII fragment). -/
def pyLower (s : String) : String := ⟨s.data.map pyToLowerChar⟩

/-- Python str.upper on strings (ASCII fragment). -/
def pyUpper (s : String) : String := ⟨s.data.map pyToUpperChar⟩

/-- Python str.lstrip(c) : drop every leading occurrence of the character. -/
def pyLstrip (s : String) (c : Char) : String :=
  ⟨s.data.dropWhile (fun x => x == c)⟩

/-- Python str.rstrip(c) : drop every trailing occurrence of the character. -/
def pyRstrip (s : String) (c : Char) : String :=
  ⟨(s.data.reverse.dropWhile (fun x => x == c)).reverse⟩

/-- Core of Python str.split(sep) for a nonempty separator, with fuel. -/
def pySplitAux (p0 : Char) (ps : List Char) : Nat → List Char → List Char → List (List Char)
  | _, [], acc => [acc]
  | 0, l, acc => [acc ++ l]
  | fuel + 1, c :: rest, acc =>
    if startsWithList (p0 :: ps) (c :: rest) then
      acc :: pySplitAux p0 ps fuel (List.drop ps.length rest) []
    else
      pySplitAux p0 ps fuel rest (acc ++ [c])

/-- Python str.split(sep) on strings, for a nonempty separator. -/
def pySplit (s sep : String) : List String :=
  match sep.data with
  | [] => [s]
  | p0 :: ps => (pySplitAux p0 ps s.data.length s.data []).map (fun l => ⟨l⟩)

/-- Python substring containment test (the `in` operator on strings). -/
def containsSubL : List Char → List Char → Bool
  | _, [] => false
  | sub, c :: rest => startsWithList sub (c :: rest) || containsSubL sub rest

/-- Python `sub in s` for strings. -/
def containsSub (s sub : String) : Bool :=
  match sub.data with
  | [] => true
  | l => containsSubL l s.data

/-- Python str.splitlines restricted to the line breaks that occur in the
inputs of this repository (LF, CR, CRLF). -/
def pySplitlinesAux : List Char → List Char → List (List Char)
  | [], acc => if acc.isEmpty then [] else [acc]
  | '\r' :: '\n' :: rest, acc => acc :: pySplitlinesAux rest []
  | '\r' :: rest, acc => acc :: pySplitlinesAux rest []
  | '\n' :: rest, acc => acc :: pySplitlinesAux rest []
  | c :: rest, acc => pySplitlinesAux rest (acc ++ [c])

/-- Python str.splitlines on strings. -/
def pySplitlines (s : String) : List String :=
  (pySplitlinesAux s.data []).map (fun l => ⟨l⟩)

/-- Python dict assignment d[k] = v on an insertion-ordered association
list: an existing key keeps its position and gets the new value, a new key
is appended at the end. -/
def dictInsert (m : List (String × String)) (k v : String) : List (String × String) :=
  if m.any (fun p => p.1 == k) then
    m.map (fun p => if p.1 == k then (k, v) else p)
  else
    m ++ [(k, v)]

/-- Python list indexing lst[i], raising IndexError when out of range. -/
def pyIndex {α : Type} (l : List α) (i : Nat) : Except PyErr α :=
  match l.get? i with
  | some a => Except.ok a
  | none => Except.error PyErr.indexError

/-! ## The shared key-splitting helper

Embedding of `_split_prefix_name` from src/pycons/iconify/api.py
(lines 454-484).  The Python function takes the tuple of positional
arguments plus an `allow_many` flag; the two flag values are embedded as
the two functions below, mirroring the two overloads declared in the
source.  Python ValueError is `PyErr.valueError` (the specification calls
this failure `InvalidIdentifier`). -/

/-- Embedding of `_split_prefix_name(key, allow_many=False)`:
single-result mode, returning the icon-set prefix and one icon name. -/
def splitOne : List String → Except PyErr (String × String)
  | [] => Except.error (PyErr.valueError "icon key must be at least one string.")
  | [k] =>
    if k.data.contains ':' then
      Except.ok (⟨k.data.takeWhile (fun c => c != ':')⟩,
                 ⟨(k.data.dropWhile (fun c => c != ':')).drop 1⟩)
    else
      Except.error (PyErr.valueError
        ("Single-argument icon names must be in the format prefix:name. Got " ++ k))
  | p :: r :: rs =>
    if rs.length > 0 then
      Except.error (PyErr.valueError "icon key must be either 1 or 2 arguments.")
    else
      Except.ok (p, r)

/-- Embedding of `_split_prefix_name(key, allow_many=True)`: multi-result
mode, returning the icon-set prefix and the list of icon names. -/
def splitMany : List String → Except PyErr (String × List String)
  | [] => Except.error (PyErr.valueError "icon key must be at least one string.")
  | [k] =>
    if k.data.contains ':' then
      Except.ok (⟨k.data.takeWhile (fun c => c != ':')⟩,
                 [⟨(k.data.dropWhile (fun c => c != ':')).drop 1⟩])
    else
      Except.error (PyErr.valueError
        ("Single-argument icon names must be in the format prefix:name. Got " ++ k))
  | p :: rest => Except.ok (p, rest)

/-! ## Hexadecimal strings

Helpers for the canonical code-point representation: Python hex(n),
the key normalization inside extract_unicode_from_css (utils.py lines
47-48), and Python int(x, 16) for re-decoding. -/

/-- Lowercase hexadecimal digit character for a value below 16. -/
def hexDigitLower (d : Nat) : Char :=
  if d < 10 then Char.ofNat (48 + d) else Char.ofNat (87 + d)

/-- Uppercase hexadecimal digit character for a value below 16. -/
def hexDigitUpper (d : Nat) : Char :=
  if d < 10 then Char.ofNat (48 + d) else Char.ofNat (55 + d)

/-- Little-endian list of base-16 digits of n, with fuel (fuel n suffices). -/
def hexDigitsRevFuel : Nat → Nat → List Nat
  | 0, _ => []
  | fuel + 1, n => if n = 0 then [] else n % 16 :: hexDigitsRevFuel fuel (n / 16)

/-- Big-endian list of base-16 digit values of n (the digits of hex(n)). -/
def hexNatDigits (n : Nat) : List Nat :=
  if n = 0 then [0] else (hexDigitsRevFuel n n).reverse

/-- Digit characters of the lowercase hexadecimal form of n. -/
def lowerHexDigits (n : Nat) : List Char := (hexNatDigits n).map hexDigitLower

/-- Digit characters of the uppercase hexadecimal form of n. -/
def upperHexDigits (n : Nat) : List Char := (hexNatDigits n).map hexDigitUpper

/-- Python hex(n) for a nonnegative integer: 0x followed by lowercase
hexadecimal digits. -/
def pythonHex (n : Nat) : String := ⟨'0' :: 'x' :: lowerHexDigits n⟩

/-- CSS escape of the uppercase hexadecimal form of a code point, as found
in icon-font CSS files (a backslash followed by the uppercase hex digits). -/
def cssUnicodeEscape (n : Nat) : String := ⟨'\\' :: upperHexDigits n⟩

/-- Key normalization performed by extract_unicode_from_css on each
captured content value (utils.py lines 47-48):
key.replace two-character backslash-F with 0xf, then lower(), then
replace a remaining backslash with 0x. -/
def normalizeCssKey (key : String) : String :=
  pyReplace (pyLower (pyReplace key "\\F" "0xf")) "\\" "0x"

/-- Value of one hexadecimal digit character, for re-decoding. -/
def hexCharVal (c : Char) : Option Nat :=
  if 48 ≤ c.toNat ∧ c.toNat ≤ 57 then some (c.toNat - 48)
  else if 97 ≤ c.toNat ∧ c.toNat ≤ 102 then some (c.toNat - 87)
  else if 65 ≤ c.toNat ∧ c.toNat ≤ 70 then some (c.toNat - 55)
  else none

/-- Accumulating hexadecimal digit parser. -/
def goHexVal : List Char → Nat → Option Nat
  | [], acc => some acc
  | c :: rest, acc =>
    match hexCharVal c with
    | some v => goHexVal rest (16 * acc + v)
    | none => none

/-- Python int(x, 16) restricted to the forms occurring here: an optional
0x or 0X prefix followed by at least one hexadecimal digit. -/
def hexStrToNat (s : String) : Option Nat :=
  if startsWithList ['0', 'x'] s.data || startsWithList ['0', 'X'] s.data then
    if (s.data.drop 2).isEmpty then none else goHexVal (s.data.drop 2) 0
  else
    if s.data.isEmpty then none else goHexVal s.data 0

/-- Character is a lowercase hexadecimal digit (0-9 or a-f). -/
def isLowerHexDigitChar (c : Char) : Bool :=
  (48 ≤ c.toNat && c.toNat ≤ 57) || (97 ≤ c.toNat && c.toNat ≤ 102)

/-- Character is a hexadecimal digit of either case. -/
def isHexDigitChar (c : Char) : Bool :=
  (48 ≤ c.toNat && c.toNat ≤ 57) || (97 ≤ c.toNat && c.toNat ≤ 102) ||
    (65 ≤ c.toNat && c.toNat ≤ 70)

/-- String is a canonical code-point string: 0x followed by at least one
lowercase hexadecimal digit. -/
def isCanonicalHexStr (s : String) : Bool :=
  startsWithList ['0', 'x'] s.data && !(s.data.drop 2).isEmpty &&
    (s.data.drop 2).all isLowerHexDigitChar

/-- Embedding of CodiconsProvider.process_mapping (providers.py line 174):
the mapping JSON is a flat object from icon name to a decimal code point;
the result maps the lowercased name to hex(code). -/
def codiconsProcessMapping (data : List (String × Nat)) : List (String × String) :=
  data.foldl (fun m p => dictInsert m (pyLower p.1) (pythonHex p.2)) []

/-! ## A small regular-expression engine

The source calls Python re.findall, with re.MULTILINE, on three fixed
patterns.  The engine below implements exactly the fragment of Python
regex semantics those patterns use: literal characters, the dot,
character classes, the whitespace class, greedy star and plus, capturing
groups, and multiline anchors, with leftmost scanning and greedy
backtracking.  The matcher carries fuel bounding the depth of the
backtracking search; the wrappers supply ample fuel for the concrete
inputs evaluated in this file. -/

/-- Abstract syntax of the regex fragment used by the source patterns. -/
inductive RE where
  | lit (c : Char)
  | cls (neg : Bool) (cs : List Char)
  | dot
  | star (r : RE)
  | plus (r : RE)
  | grp (i : Nat) (rs : List RE)
  | bol
  | eol

/-- The characters of the Python whitespace class. -/
def wsChars : List Char := [' ', '\t', '\n', '\r', '\x0b', '\x0c']

/-- Read a capture group from the capture list (most recent first). -/
def capGet (caps : List (Nat × String)) (i : Nat) : String :=
  match caps.find? (fun p => p.1 == i) with
  | some p => p.2
  | none => ""

/-- Backtracking matcher in continuation style.  Matches the sequence of
regex nodes against s starting at pos, threading captures, and calls the
continuation with the end position and captures of every candidate match,
most preferred first (greedy). -/
def reMatch : Nat → List Char → List RE → Nat → List (Nat × String) →
    (Nat → List (Nat × String) → Option (Nat × List (Nat × String))) →
    Option (Nat × List (Nat × String))
  | 0, _, _, _, _, _ => none
  | _ + 1, _, [], pos, caps, k => k pos caps
  | fuel + 1, s, r :: rs, pos, caps, k =>
    match r with
    | RE.lit c =>
      match s.get? pos with
      | some c2 => if c2 == c then reMatch fuel s rs (pos + 1) caps k else none
      | none => none
    | RE.cls neg cs =>
      match s.get? pos with
      | some c2 =>
        if cs.contains c2 == !neg then reMatch fuel s rs (pos + 1) caps k else none
      | none => none
    | RE.dot =>
      match s.get? pos with
      | some c2 => if c2 == '\n' then none else reMatch fuel s rs (pos + 1) caps k
      | none => none
    | RE.bol =>
      if pos == 0 then reMatch fuel s rs pos caps k
      else
        match s.get? (pos - 1) with
        | some c2 => if c2 == '\n' then reMatch fuel s rs pos caps k else none
        | none => none
    | RE.eol =>
      if pos == s.length then reMatch fuel s rs pos caps k
      else
        match s.get? pos with
        | some c2 => if c2 == '\n' then reMatch fuel s rs pos caps k else none
        | none => none
    | RE.star r1 =>
      (reMatch fuel s [r1] pos caps (fun p2 c2 =>
        if p2 == pos then none else reMatch fuel s (RE.star r1 :: rs) p2 c2 k)).orElse
        (fun _ => reMatch fuel s rs pos caps k)
    | RE.plus r1 => reMatch fuel s (r1 :: RE.star r1 :: rs) pos caps k
    | RE.grp i inner =>
      reMatch fuel s inner pos caps (fun p2 c2 =>
        reMatch fuel s rs p2 ((i, ⟨(s.drop pos).take (p2 - pos)⟩) :: c2) k)

/-- Try a match of the whole pattern starting exactly at pos. -/
def reSearchAt (pat : List RE) (s : List Char) (pos : Nat) :
    Option (Nat × List (Nat × String)) :=
  reMatch ((s.length + 64) * 8) s pat pos [] (fun p c => some (p, c))

/-- Scan positions left to right collecting non-overlapping matches, as
Python re.findall does; each match contributes the tuple of its ng
capture groups. -/
def reFindAllAux (pat : List RE) (s : List Char) (ng : Nat) : Nat → Nat → List (List String)
  | 0, _ => []
  | fuel + 1, pos =>
    if pos ≤ s.length then
      match reSearchAt pat s pos with
      | some (p, caps) =>
        ((List.range ng).map (fun i => capGet caps (i + 1))) ::
          reFindAllAux pat s ng fuel (max (pos + 1) p)
      | none => reFindAllAux pat s ng fuel (pos + 1)
    else []

/-- Python re.findall(pattern, s, re.MULTILINE) for a pattern with ng
capture groups. -/
def reFindAll (pat : List RE) (ng : Nat) (s : String) : List (List String) :=
  reFindAllAux pat s.data ng (s.data.length + 1) 0

/-- Sequence of literal nodes for a literal fragment of a pattern. -/
def lits (s : String) : List RE := s.data.map RE.lit

/-- The Remix CSS pattern of providers.py line 222: caret, literal .ri-,
group of one-or-more dots, literal colon-before-space-brace, star of
whitespace, literal content colon space quote, group of one-or-more dots,
quote semicolon, star of whitespace, closing brace, dollar. -/
def remixCssPattern : List RE :=
  [RE.bol] ++ lits ".ri-" ++ [RE.grp 1 [RE.plus RE.dot]] ++ lits ":before \x7b" ++
    [RE.star (RE.cls false wsChars)] ++ lits "content: \"" ++
    [RE.grp 2 [RE.plus RE.dot]] ++ lits "\";" ++ [RE.star (RE.cls false wsChars)] ++
    lits "\x7d" ++ [RE.eol]

/-- The Material Design CSS pattern of providers.py line 98: literal .mdi-,
group of one-or-more non-colon characters, literal colon-before, star of
whitespace, opening brace, star of whitespace, literal content colon, star
of whitespace, quote, group of one-or-more dots, quote, star of
whitespace, closing brace. -/
def mdiCssPattern : List RE :=
  lits ".mdi-" ++ [RE.grp 1 [RE.plus (RE.cls true [':'])]] ++ lits ":before" ++
    [RE.star (RE.cls false wsChars)] ++ lits "\x7b" ++ [RE.star (RE.cls false wsChars)] ++
    lits "content:" ++ [RE.star (RE.cls false wsChars)] ++ lits "\"" ++
    [RE.grp 2 [RE.plus RE.dot]] ++ lits "\"" ++ [RE.star (RE.cls false wsChars)] ++
    lits "\x7d"

/-- The missing-icon pattern of iconify/api.py line 274: the literal text
followed by a group of zero-or-more non-whitespace characters and a
space. -/
def missingIconPattern : List RE :=
  lits "Could not find icon: " ++ [RE.grp 1 [RE.star (RE.cls true wsChars)]] ++ lits " "

/-- Embedding of extract_unicode_from_css (utils.py lines 39-52): find
all selector-content matches of the pattern, normalize each content value
through the replace-lower-replace chain and each selector name through
rstrip-colon and lower, and build the dict in match order. -/
def extract_unicode_from_css (css_data : String) (pat : List RE) : List (String × String) :=
  (reFindAll pat 2 css_data).foldl
    (fun charmap g =>
      match g with
      | [nm, key] => dictInsert charmap (pyLower (pyRstrip nm ':')) (normalizeCssKey key)
      | _ => charmap)
    []

/-- Embedding of RemixProvider.process_mapping (providers.py lines
235-236). -/
def remixProcessMapping (mapping_data : String) : List (String × String) :=
  extract_unicode_from_css mapping_data remixCssPattern

/-! ## The Material Design line-scanning parser

Embedding of MaterialDesignProvider.process_mapping (providers.py lines
113-151), which scans the CSS line by line instead of using the regex of
extract_unicode_from_css.  Python list indexing and list.index are
modelled in the Except monad exactly where the source can raise. -/

/-- Python list.index(x): the first index holding an equal element,
ValueError when absent. -/
def pyListIndex (l : List String) (x : String) : Except PyErr Nat :=
  match l.findIdx? (fun y => y == x) with
  | some i => Except.ok i
  | none => Except.error (PyErr.valueError "x not in list")

/-- Inner look-ahead loop of the Material Design parser (providers.py
lines 131-145): for i in range(3), stop when i + 1 reaches the number of
lines, read the line at index idx + i + 1 (IndexError when out of range),
and on the first line containing a content property and an uppercase
backslash-F escape record the icon value and stop.  The first argument
counts the remaining loop iterations, the second is i itself. -/
def mdLookAhead (lines : List String) (idx : Nat) (icon_name : String) :
    Nat → Nat → List (String × String) → Except PyErr (List (String × String))
  | 0, _, icons => Except.ok icons
  | fuel + 1, i, icons =>
    if i + 1 ≥ lines.length then Except.ok icons
    else
      match pyIndex lines (idx + i + 1) with
      | Except.error e => Except.error e
      | Except.ok content_line =>
        if containsSub content_line "content:" && containsSub (pyUpper content_line) "\\F" then
          match pyIndex (pySplit content_line "content:") 1 with
          | Except.error e => Except.error e
          | Except.ok a =>
            match pyIndex (pySplit a "\"\\") 1 with
            | Except.error e => Except.error e
            | Except.ok b =>
              Except.ok (dictInsert icons icon_name
                ("0x" ++ pyLower ((pySplit b "\"").headD "")))
        else
          mdLookAhead lines idx icon_name fuel (i + 1) icons

/-- Embedding of MaterialDesignProvider.process_mapping (providers.py
lines 113-151): for each line containing a mdi selector, extract the icon
name from the selector and look ahead up to three following lines for the
content value; the line index is recomputed with list.index, that is, the
first occurrence of an equal line.  The debug prints of the source do not
affect the returned mapping and are omitted. -/
def mdProcessMapping (mapping_data : String) : Except PyErr (List (String × String)) :=
  (pySplitlines mapping_data).foldlM
    (fun icons line =>
      if containsSub line ".mdi-" && containsSub line ":before" then
        match pyIndex (pySplit line ".mdi-") 1 with
        | Except.error e => Except.error e
        | Except.ok seg =>
          match pyListIndex (pySplitlines mapping_data) line with
          | Except.error e => Except.error e
          | Except.ok idx =>
            mdLookAhead (pySplitlines mapping_data) idx
              ((pySplit seg ":before").headD "") 3 0 icons
      else Except.ok icons)
    []

/-! ## The JSON-based providers -/

/-- Metadata of one FontAwesome icon inside icons.json: the style list and
the unicode field, which in the upstream file is a bare hexadecimal
string. -/
structure FAIconInfo where
  styles : List String
  unicode : String
deriving DecidableEq, Repr

/-- Shared body of the three FontAwesome process_mapping methods
(providers.py lines 38-44, 58-64, 78-84): keep the icons whose styles
contain the given style and copy the unicode field unchanged. -/
def faStyleProcessMapping (style : String) (data : List (String × FAIconInfo)) :
    List (String × String) :=
  data.foldl
    (fun m p => if p.2.styles.contains style then dictInsert m p.1 p.2.unicode else m)
    []

/-- FontAwesomeRegularProvider.process_mapping (providers.py lines 38-44). -/
def faRegularProcessMapping : List (String × FAIconInfo) → List (String × String) :=
  faStyleProcessMapping "regular"

/-- FontAwesomeSolidProvider.process_mapping (providers.py lines 58-64). -/
def faSolidProcessMapping : List (String × FAIconInfo) → List (String × String) :=
  faStyleProcessMapping "solid"

/-- FontAwesomeBrandsProvider.process_mapping (providers.py lines 78-84). -/
def faBrandsProcessMapping : List (String × FAIconInfo) → List (String × String) :=
  faStyleProcessMapping "brands"

/-- One icon of the Phosphor mapping file: its grid code point and its
tag list. -/
structure PhosphorIcon where
  grid : Nat
  tags : List String
deriving DecidableEq, Repr

/-- Embedding of PhosphorProvider.process_mapping (providers.py lines
199-211): take the icons of the first icon set (IndexError when the
iconSets list is empty) and map every tag of every icon to hex(grid). -/
def phosphorProcessMapping (iconSets : List (List PhosphorIcon)) :
    Except PyErr (List (String × String)) :=
  match pyIndex iconSets 0 with
  | Except.error e => Except.error e
  | Except.ok icons =>
    Except.ok (icons.foldl
      (fun m icon =>
        icon.tags.foldl (fun m2 tag => dictInsert m2 tag (pythonHex icon.grid)) m)
      [])

/-! ## The provider registry -/

/-- Static descriptor of a provider: the NAME, PREFIX and DISPLAY_NAME
class variables of base.py lines 16-22 (the field pfx holds PREFIX). -/
structure ProviderInfo where
  name : String
  pfx : String
  displayName : String
deriving DecidableEq, Repr

/-- The PROVIDERS registry of providers.py lines 239-247, keyed by NAME,
in source order. -/
def PROVIDERS : List (String × ProviderInfo) :=
  [("fontawesome-regular", ⟨"fontawesome-regular", "fa", "Font Awesome 6 Free Regular"⟩),
   ("fontawesome-solid", ⟨"fontawesome-solid", "fas", "Font Awesome 6 Free Solid"⟩),
   ("fontawesome-brands", ⟨"fontawesome-brands", "fab", "Font Awesome 6 Brands"⟩),
   ("material", ⟨"material", "mdi", "Material Design Icons"⟩),
   ("codicons", ⟨"codicons", "msc", "VS Code Codicons"⟩),
   ("phosphor", ⟨"phosphor", "ph", "Phosphor Icons"⟩),
   ("remix", ⟨"remix", "ri", "Remix Icon"⟩)]

/-! ## The version fetchers over an explicit network oracle -/

/-- Minimal JSON value model for the latest-version endpoints. -/
inductive JsonV where
  | str (s : String)
  | num (n : Int)
  | arr (xs : List JsonV)
  | obj (fields : List (String × JsonV))
  | nullv

/-- Read a string field of a JSON object: KeyError when the key is
absent, TypeError when the value is not a string or the subject is not an
object (the unexpected-shape failures). -/
def jsonGetStr (j : JsonV) (key : String) : Except PyErr String :=
  match j with
  | JsonV.obj fields =>
    match fields.find? (fun p => p.1 == key) with
    | some p =>
      match p.2 with
      | JsonV.str s => Except.ok s
      | _ => Except.error (PyErr.typeError "not a string")
    | none => Except.error (PyErr.keyError key)
  | _ => Except.error (PyErr.typeError "not an object")

/-- Read the element at an index of a JSON array. -/
def jsonAt (j : JsonV) (i : Nat) : Except PyErr JsonV :=
  match j with
  | JsonV.arr xs => pyIndex xs i
  | _ => Except.error (PyErr.typeError "not a list")

/-- The network as an oracle: fetching a URL either fails with the
network error surfaced by fetch_url (UpstreamUnavailable) or yields the
parsed JSON body (fetch_url composed with load_json). -/
structure NetWorld where
  fetchJson : String → Except PyErr JsonV

/-- GITHUB_API of FontAwesomeBase (providers.py line 18). -/
def FA_GITHUB_API : String :=
  "https://api.github.com/repos/FortAwesome/Font-Awesome/releases/latest"

/-- VERSION_URL of MaterialDesignProvider (providers.py line 94). -/
def MD_VERSION_URL : String :=
  "https://api.github.com/repos/Templarian/MaterialDesign-Webfont/tags"

/-- VERSION_URL of CodiconsProvider (providers.py line 161). -/
def CODICONS_VERSION_URL : String :=
  "https://api.github.com/repos/microsoft/vscode-codicons/releases/latest"

/-- Embedding of FontAwesomeBase.get_latest_version (providers.py lines
21-24): fetch the latest-release JSON and return the tag_name field with
leading v stripped. -/
def faGetLatestVersion (w : NetWorld) : Except PyErr String :=
  match w.fetchJson FA_GITHUB_API with
  | Except.error e => Except.error e
  | Except.ok release_info =>
    match jsonGetStr release_info "tag_name" with
    | Except.error e => Except.error e
    | Except.ok tag => Except.ok (pyLstrip tag 'v')

/-- Embedding of MaterialDesignProvider.get_latest_version (providers.py
lines 100-105): fetch the tags JSON and return the name of the first tag
with leading v stripped. -/
def mdGetLatestVersion (w : NetWorld) : Except PyErr String :=
  match w.fetchJson MD_VERSION_URL with
  | Except.error e => Except.error e
  | Except.ok tags =>
    match jsonAt tags 0 with
    | Except.error e => Except.error e
    | Except.ok first =>
      match jsonGetStr first "name" with
      | Except.error e => Except.error e
      | Except.ok nm => Except.ok (pyLstrip nm 'v')

/-- Embedding of CodiconsProvider.get_latest_version (providers.py lines
163-166). -/
def codiconsGetLatestVersion (w : NetWorld) : Except PyErr String :=
  match w.fetchJson CODICONS_VERSION_URL with
  | Except.error e => Except.error e
  | Except.ok release_info =>
    match jsonGetStr release_info "tag_name" with
    | Except.error e => Except.error e
    | Except.ok tag => Except.ok (pyLstrip tag 'v')

/-- Embedding of PhosphorProvider.get_latest_version (providers.py lines
192-197): the fetch is commented out in the source and the constant
master is returned without touching the network. -/
def phosphorGetLatestVersion (w : NetWorld) : Except PyErr String :=
  Except.ok "master"

/-- Embedding of RemixProvider.get_latest_version (providers.py lines
228-233): likewise returns the constant master without any fetch. -/
def remixGetLatestVersion (w : NetWorld) : Except PyErr String :=
  Except.ok "master"

/-- A world in which every network fetch fails. -/
def deadNetWorld : NetWorld :=
  ⟨fun _ => Except.error (PyErr.valueError "UpstreamUnavailable")⟩

/-- A world in which every endpoint answers with an empty JSON object, an
unexpected response shape. -/
def emptyObjNetWorld : NetWorld :=
  ⟨fun _ => Except.ok (JsonV.obj [])⟩

/-! ## The query wrapper over an explicit HTTP oracle -/

/-- The icon-query HTTP layer as an oracle: the text and bytes endpoints
(get_text_sync and get_bytes_sync of the source; a byte response is
modelled as a string). -/
structure QueryWorld where
  getText : String → List (String × String) → Except PyErr String
  getBytes : String → List (String × String) → Except PyErr String

/-- ROOT of iconify/api.py line 29. -/
def ICONIFY_ROOT : String := "https://api.iconify.design"

/-- Keep the present optional parameters, in order (the Remove-None
step of the source). -/
def catParams (ps : List (String × Option String)) : List (String × String) :=
  ps.foldr (fun p acc => match p.2 with | some v => (p.1, v) :: acc | none => acc) []

/-- Code-point lexicographic comparison of strings (Python string
ordering on the ASCII payloads used here). -/
def strLtB : List Char → List Char → Bool
  | [], [] => false
  | [], _ :: _ => true
  | _ :: _, [] => false
  | a :: as2, b :: bs =>
    if a.toNat < b.toNat then true
    else if b.toNat < a.toNat then false
    else strLtB as2 bs

/-- Insert into a sorted list of strings. -/
def insertSorted (x : String) : List String → List String
  | [] => [x]
  | y :: ys => if strLtB x.data y.data then x :: y :: ys else y :: insertSorted x ys

/-- Python sorted on a list of strings. -/
def sortStrings (l : List String) : List String := l.foldr insertSorted []

/-- Deduplicate keeping first occurrences (the effect of building the
Python set before sorting). -/
def dedupKeepFirst (l : List String) : List String :=
  l.foldl (fun acc x => if acc.contains x then acc else acc ++ [x]) []

/-- Embedding of css (iconify/api.py lines 199-280) with string-valued
options: split the keys in multi-result mode, build the query parameters,
issue one text request, scan the response for missing-icon markers, and
when some icons are missing report the sorted deduplicated set through a
non-fatal warning (collected here as the second component) while still
returning the response text. -/
def cssQuery (w : QueryWorld) (keys : List String)
    (selector common override var color mode format : Option String)
    (pseudo square : Option Bool) : Except PyErr (String × List (List String)) :=
  match splitMany keys with
  | Except.error e => Except.error e
  | Except.ok r =>
    match w.getText (ICONIFY_ROOT ++ "/" ++ r.1 ++ ".css?icons=" ++
        String.intercalate "," r.2)
        (catParams
          [("selector", selector), ("common", common), ("override", override),
           ("var", var), ("color", color), ("mode", mode), ("format", format)] ++
         (if pseudo = some true then [("pseudo", "1")] else []) ++
         (if square = some true then [("square", "1")] else [])) with
    | Except.error e => Except.error e
    | Except.ok resp =>
      Except.ok (resp,
        (fun missing => if missing.isEmpty then [] else [missing])
          (sortStrings (dedupKeepFirst
            ((reFindAll missingIconPattern 1 resp).map (fun g => g.headD "")))))

/-- Embedding of svg (iconify/api.py lines 127-196) with string-valued
options: split the key in single-result mode, build the query parameters
(a string rotate value is normalized to a deg suffix), request the bytes
and return them as they are.  The source has no missing-icon handling
here, so the warning component is always empty. -/
def svgQuery (w : QueryWorld) (key : List String)
    (color height width flip rotate : Option String) (box : Option Bool) :
    Except PyErr (String × List (List String)) :=
  match splitOne key with
  | Except.error e => Except.error e
  | Except.ok r =>
    match w.getBytes (ICONIFY_ROOT ++ "/" ++ r.1 ++ "/" ++ r.2 ++ ".svg")
        (catParams
          [("color", color), ("height", height), ("width", width), ("flip", flip),
           ("rotate", rotate.map (fun v => pyReplace v "deg" "" ++ "deg"))] ++
         (if box = some true then [("box", "1")] else [])) with
    | Except.error e => Except.error e
    | Except.ok data => Except.ok (data, [])

/-- A world whose stylesheet endpoint reports a missing icon in its body
and whose svg endpoint answers with a not-found body. -/
def missingIconWorld : QueryWorld :=
  ⟨fun _ _ => Except.ok "/* Could not find icon: mdi:nonexistent */",
   fun _ _ => Except.ok "404 not found"⟩

/-! ## Claims C1 and C7 -/

/-- C1: in single-result mode the splitting helper treats the single
string "mdi:account" and the pair "mdi", "account" identically, both
yielding the pair ("mdi", "account"); a single string without a colon
fails with a ValueError (the InvalidIdentifier of the specification), and
the empty call fails the same way. -/
theorem spec_c1_split_equivalence :
    splitOne ["mdi:account"] = Except.ok ("mdi", "account") ∧
    splitOne ["mdi", "account"] = Except.ok ("mdi", "account") ∧
    splitOne ["noColon"] = Except.error (PyErr.valueError
      "Single-argument icon names must be in the format prefix:name. Got noColon") ∧
    splitOne [] = Except.error (PyErr.valueError "icon key must be at least one string.") :=
  ⟨rfl, rfl, rfl, rfl⟩

/-- C7 counterexample: a single string with two colons is not rejected;
the helper splits it at the first colon, so the claim that exactly one
colon is required is false. -/
theorem spec_c7_counterexample :
    splitOne ["a:b:c"] = Except.ok ("a", "b:c") := rfl

theorem takeWhile_append_of_all {p : Char → Bool} {l m : List Char}
    (h : ∀ c ∈ l, p c = true) :
    (l ++ m).takeWhile p = l ++ m.takeWhile p := by
  induction l with
  | nil => simp
  | cons c cs ih =>
    have hc : p c = true := h c (List.mem_cons_self c cs)
    simp [List.takeWhile, hc]
    exact ih (fun x hx => h x (List.mem_cons_of_mem c hx))

theorem dropWhile_append_of_all {p : Char → Bool} {l m : List Char}
    (h : ∀ c ∈ l, p c = true) :
    (l ++ m).dropWhile p = m.dropWhile p := by
  induction l with
  | nil => simp
  | cons c cs ih =>
    have hc : p c = true := h c (List.mem_cons_self c cs)
    simp [List.dropWhile, hc]
    exact ih (fun x hx => h x (List.mem_cons_of_mem c hx))

/-- C7 amended: the single-string form of the helper requires at least one
colon, not exactly one.  A string without a colon fails with a ValueError,
and a string of the form p ++ ":" ++ n with no colon in p splits at that
first colon into (p, n) even when n itself contains further colons
(Python split with maxsplit equal to one). -/
theorem splitOne_single_eq (k : String) :
    splitOne [k] =
      if k.data.contains ':' then
        Except.ok (⟨k.data.takeWhile (fun c => c != ':')⟩,
                   ⟨(k.data.dropWhile (fun c => c != ':')).drop 1⟩)
      else
        Except.error (PyErr.valueError
          ("Single-argument icon names must be in the format prefix:name. Got " ++ k)) := rfl

/-- C7 amended: the single-string form of the helper requires at least one
colon, not exactly one.  A string without a colon fails with a ValueError,
and a string of the form p ++ ":" ++ n with no colon in p splits at that
first colon into (p, n) even when n itself contains further colons
(Python split with maxsplit equal to one). -/
theorem spec_c7_amended :
    (∀ s : String, s.data.contains ':' = false → (splitOne [s]).isOk = false) ∧
    (∀ p n : String, p.data.contains ':' = false →
      splitOne [p ++ ":" ++ n] = Except.ok (p, n)) := by
  constructor
  · intro s hs
    rw [splitOne_single_eq, hs]
    rfl
  · intro p n hp
    have hdata : (p ++ ":" ++ n).data = p.data ++ ':' :: n.data := by
      simp [String.data_append]
    have hnotmem : ':' ∉ p.data := by
      intro hmem
      have hc : p.data.contains ':' = true := by
        simpa [List.contains] using List.elem_iff.mpr hmem
      rw [hc] at hp
      exact Bool.noConfusion hp
    have hall : ∀ c ∈ p.data, (c != ':') = true := by
      intro c hc
      have hne : c ≠ ':' := fun he => hnotmem (he ▸ hc)
      simpa [bne] using hne
    have hcontains : (p ++ ":" ++ n).data.contains ':' = true := by
      rw [hdata]
      simp [List.contains, List.elem_iff]
    have htake : ((p ++ ":" ++ n).data).takeWhile (fun c => c != ':') = p.data := by
      rw [hdata, takeWhile_append_of_all hall]
      simp [List.takeWhile]
    have hdrop : ((p ++ ":" ++ n).data).dropWhile (fun c => c != ':') = ':' :: n.data := by
      rw [hdata, dropWhile_append_of_all hall]
      simp [List.dropWhile]
    rw [splitOne_single_eq, hcontains]
    simp only [if_true, htake, hdrop, List.drop_succ_cons, List.drop_zero]

/-- Witness for the amended C7 theorem: instantiated at the concrete
inputs "noColon" and "a" ++ ":" ++ "b:c". -/
theorem spec_c7_amended_witness :
    (splitOne ["noColon"]).isOk = false ∧
    splitOne ["a" ++ ":" ++ "b:c"] = Except.ok ("a", "b:c") :=
  ⟨spec_c7_amended.1 "noColon" rfl, spec_c7_amended.2 "a" "b:c" rfl⟩

/-! ## Facts about the hexadecimal helpers -/

theorem char_toNat_ofNat {n : Nat} (h : n < 55296) : (Char.ofNat n).toNat = n := by
  unfold Char.ofNat
  rw [dif_pos (Or.inl h)]
  rfl

theorem hexCharVal_hexDigitLower : ∀ d < 16, hexCharVal (hexDigitLower d) = some d := by
  decide

theorem pyToLowerChar_hexDigitUpper : ∀ d < 16, pyToLowerChar (hexDigitUpper d) = hexDigitLower d := by
  decide

theorem isHexDigitChar_hexDigitUpper : ∀ d < 16, isHexDigitChar (hexDigitUpper d) = true := by
  decide

theorem isLowerHex_pyToLower (c : Char) (h : isHexDigitChar c = true) :
    isLowerHexDigitChar (pyToLowerChar c) = true := by
  unfold isHexDigitChar at h
  unfold pyToLowerChar isLowerHexDigitChar
  simp only [Bool.or_eq_true, Bool.and_eq_true, decide_eq_true_iff] at h ⊢
  rcases h with (h | h) | h
  · rw [if_neg (by omega)]
    omega
  · rw [if_neg (by omega)]
    omega
  · rw [if_pos (by omega),
      char_toNat_ofNat (by omega)]
    omega

theorem lowerHex_ne_backslash (c : Char) (h : isLowerHexDigitChar c = true) : c ≠ '\\' := by
  intro he
  rw [he] at h
  exact absurd h (by decide)

theorem hexChar_ne_backslash (c : Char) (h : isHexDigitChar c = true) : c ≠ '\\' := by
  intro he
  rw [he] at h
  exact absurd h (by decide)

theorem pyReplaceAux_not_mem (p0 : Char) (ps rep : List Char) :
    ∀ (fuel : Nat) (l : List Char), p0 ∉ l → pyReplaceAux p0 ps rep fuel l = l := by
  intro fuel
  induction fuel with
  | zero => intro l _; cases l <;> rfl
  | succ f ih =>
    intro l hl
    cases l with
    | nil => rfl
    | cons c rest =>
      have hne : p0 ≠ c := fun he => hl (he ▸ List.mem_cons_self c rest)
      have hbeq : (p0 == c) = false := beq_eq_false_iff_ne.mpr hne
      simp only [pyReplaceAux, startsWithList, hbeq, Bool.false_and, Bool.false_eq_true,
        if_false]
      rw [ih rest (fun hm => hl (List.mem_cons_of_mem c hm))]

theorem pyReplaceL_not_mem (p0 : Char) (ps rep l : List Char) (h : p0 ∉ l) :
    pyReplaceL (p0 :: ps) rep l = l := by
  simp [pyReplaceL, pyReplaceAux_not_mem p0 ps rep _ l h]

theorem pyReplaceL_backslashF (u : Char) (rest : List Char) (hbsrest : '\\' ∉ rest)
    (hu : u ≠ '\\') :
    pyReplaceL ['\\', 'F'] ['0', 'x', 'f'] ('\\' :: u :: rest) =
      if u = 'F' then '0' :: 'x' :: 'f' :: rest else '\\' :: u :: rest := by
  by_cases hF : u = 'F'
  · subst hF
    rw [if_pos rfl]
    show pyReplaceAux '\\' ['F'] ['0', 'x', 'f'] (rest.length + 1 + 1) ('\\' :: 'F' :: rest) = _
    simp only [pyReplaceAux, startsWithList]
    norm_num
    rw [pyReplaceAux_not_mem _ _ _ _ _ hbsrest]
  · rw [if_neg hF]
    have hbeq : ('F' == u) = false := beq_eq_false_iff_ne.mpr (fun he => hF he.symm)
    have hbeq2 : ('\\' == u) = false := beq_eq_false_iff_ne.mpr (fun he => hu he.symm)
    show pyReplaceAux '\\' ['F'] ['0', 'x', 'f'] (rest.length + 1 + 1) ('\\' :: u :: rest) = _
    simp only [pyReplaceAux, startsWithList, hbeq, hbeq2, Bool.false_and, Bool.and_false,
      Bool.false_eq_true, if_false]
    rw [pyReplaceAux_not_mem _ _ _ _ _ hbsrest]

theorem pyReplaceL_backslash (m : List Char) (hm : '\\' ∉ m) :
    pyReplaceL ['\\'] ['0', 'x'] ('\\' :: m) = '0' :: 'x' :: m := by
  show pyReplaceAux '\\' [] ['0', 'x'] (m.length + 1) ('\\' :: m) = _
  simp only [pyReplaceAux, startsWithList]
  norm_num
  rw [pyReplaceAux_not_mem _ _ _ _ _ hm]

/-- Core normalization fact: a CSS escape, a backslash followed by a
nonempty run of hexadecimal digit characters of either case, normalizes
through the replace-lower-replace chain of extract_unicode_from_css to 0x
followed by the lowercased digits. -/
theorem normalizeCssKey_backslash (l : List Char) (hne : l ≠ [])
    (hhex : ∀ c ∈ l, isHexDigitChar c = true) :
    normalizeCssKey ⟨'\\' :: l⟩ = ⟨'0' :: 'x' :: l.map pyToLowerChar⟩ := by
  have hbs : '\\' ∉ l := by
    intro hm
    exact absurd rfl (hexChar_ne_backslash '\\' (hhex _ hm))
  have hbsmap : '\\' ∉ l.map pyToLowerChar := by
    intro hm
    rcases List.mem_map.mp hm with ⟨c, hc, hc2⟩
    have hlow := isLowerHex_pyToLower c (hhex c hc)
    rw [hc2] at hlow
    exact absurd hlow (by decide)
  cases l with
  | nil => exact absurd rfl hne
  | cons u rest =>
    have hbsrest : '\\' ∉ rest := fun hm => hbs (List.mem_cons_of_mem u hm)
    have hune : u ≠ '\\' := hexChar_ne_backslash u (hhex u (List.mem_cons_self u rest))
    have h1 : pyReplace ⟨'\\' :: u :: rest⟩ "\\F" "0xf" =
        ⟨pyReplaceL ['\\', 'F'] ['0', 'x', 'f'] ('\\' :: u :: rest)⟩ := rfl
    unfold normalizeCssKey
    rw [h1, pyReplaceL_backslashF u rest hbsrest hune]
    by_cases hF : u = 'F'
    · subst hF
      rw [if_pos rfl]
      have h2 : pyLower ⟨'0' :: 'x' :: 'f' :: rest⟩ =
          ⟨'0' :: 'x' :: 'f' :: rest.map pyToLowerChar⟩ := rfl
      rw [h2]
      have h3 : pyReplace ⟨'0' :: 'x' :: 'f' :: rest.map pyToLowerChar⟩ "\\" "0x" =
          ⟨pyReplaceL ['\\'] ['0', 'x'] ('0' :: 'x' :: 'f' :: rest.map pyToLowerChar)⟩ := rfl
      rw [h3, pyReplaceL_not_mem '\\' [] ['0', 'x'] _ (by
        intro hm
        simp only [List.mem_cons] at hm
        rcases hm with h | h | h | h
        · exact absurd h (by decide)
        · exact absurd h (by decide)
        · exact absurd h (by decide)
        · exact hbsmap (by
            simp only [List.map_cons, List.mem_cons]
            exact Or.inr h))]
      simp only [List.map_cons]
      rfl
    · rw [if_neg hF]
      have h2 : pyLower ⟨'\\' :: u :: rest⟩ =
          ⟨'\\' :: (u :: rest).map pyToLowerChar⟩ := rfl
      rw [h2]
      have h3 : pyReplace ⟨'\\' :: (u :: rest).map pyToLowerChar⟩ "\\" "0x" =
          ⟨pyReplaceL ['\\'] ['0', 'x'] ('\\' :: (u :: rest).map pyToLowerChar)⟩ := rfl
      rw [h3, pyReplaceL_backslash _ hbsmap]

theorem hexDigitsRevFuel_lt : ∀ (f n : Nat), ∀ d ∈ hexDigitsRevFuel f n, d < 16 := by
  intro f
  induction f with
  | zero => intro n d hd; simp [hexDigitsRevFuel] at hd
  | succ f ih =>
    intro n d hd
    by_cases hn : n = 0
    · simp [hexDigitsRevFuel, hn] at hd
    · simp only [hexDigitsRevFuel, if_neg hn, List.mem_cons] at hd
      rcases hd with h | h
      · omega
      · exact ih _ _ h

theorem foldr_hexDigitsRevFuel : ∀ (f n : Nat), n ≤ f →
    (hexDigitsRevFuel f n).foldr (fun d a => d + 16 * a) 0 = n := by
  intro f
  induction f with
  | zero =>
    intro n h
    have hn : n = 0 := Nat.le_zero.mp h
    subst hn
    rfl
  | succ f ih =>
    intro n h
    by_cases hn : n = 0
    · subst hn; rfl
    · simp only [hexDigitsRevFuel, if_neg hn, List.foldr_cons]
      rw [ih (n / 16) (by omega)]
      omega

theorem foldl_reverse_digits (ds : List Nat) :
    ds.reverse.foldl (fun a d => 16 * a + d) 0 = ds.foldr (fun d a => d + 16 * a) 0 := by
  induction ds with
  | nil => rfl
  | cons d rest ih =>
    simp only [List.reverse_cons, List.foldl_append, List.foldr_cons, List.foldl_cons,
      List.foldl_nil, ih]
    omega

theorem valBE_hexNatDigits (n : Nat) :
    (hexNatDigits n).foldl (fun a d => 16 * a + d) 0 = n := by
  unfold hexNatDigits
  by_cases hn : n = 0
  · subst hn; rfl
  · rw [if_neg hn, foldl_reverse_digits, foldr_hexDigitsRevFuel n n le_rfl]

theorem hexNatDigits_ne_nil (n : Nat) : hexNatDigits n ≠ [] := by
  unfold hexNatDigits
  by_cases hn : n = 0
  · simp [hn]
  · rw [if_neg hn]
    cases n with
    | zero => exact absurd rfl hn
    | succ m => simp [hexDigitsRevFuel]

theorem hexNatDigits_lt (n : Nat) : ∀ d ∈ hexNatDigits n, d < 16 := by
  unfold hexNatDigits
  by_cases hn : n = 0
  · rw [if_pos hn]
    intro d hd
    simp only [List.mem_singleton] at hd
    omega
  · rw [if_neg hn]
    intro d hd
    exact hexDigitsRevFuel_lt n n d (List.mem_reverse.mp hd)

theorem goHexVal_map_lower : ∀ (ds : List Nat), (∀ d ∈ ds, d < 16) → ∀ acc : Nat,
    goHexVal (ds.map hexDigitLower) acc = some (ds.foldl (fun a d => 16 * a + d) acc) := by
  intro ds
  induction ds with
  | nil => intro _ acc; rfl
  | cons d rest ih =>
    intro h acc
    simp only [List.map_cons, goHexVal]
    rw [hexCharVal_hexDigitLower d (h d (List.mem_cons_self d rest))]
    exact ih (fun x hx => h x (List.mem_cons_of_mem d hx)) (16 * acc + d)

theorem lowerHexDigits_ne_nil (n : Nat) : lowerHexDigits n ≠ [] := by
  unfold lowerHexDigits
  intro h
  exact hexNatDigits_ne_nil n (List.map_eq_nil_iff.mp h)

theorem hexStrToNat_pythonHex (n : Nat) : hexStrToNat (pythonHex n) = some n := by
  have h1 : (pythonHex n).data = '0' :: 'x' :: lowerHexDigits n := rfl
  unfold hexStrToNat
  rw [h1]
  rw [if_pos (by simp [startsWithList])]
  simp only [List.drop_succ_cons, List.drop_zero]
  rw [if_neg (by
    intro hcon
    exact lowerHexDigits_ne_nil n (List.isEmpty_iff.mp hcon))]
  unfold lowerHexDigits
  rw [goHexVal_map_lower _ (hexNatDigits_lt n) 0, valBE_hexNatDigits]

theorem map_pyToLower_upperHex (n : Nat) :
    (upperHexDigits n).map pyToLowerChar = lowerHexDigits n := by
  unfold upperHexDigits lowerHexDigits
  rw [List.map_map]
  exact List.map_congr_left (fun d hd => pyToLowerChar_hexDigitUpper d (hexNatDigits_lt n d hd))

theorem upperHexDigits_isHex (n : Nat) : ∀ c ∈ upperHexDigits n, isHexDigitChar c = true := by
  intro c hc
  rcases List.mem_map.mp hc with ⟨d, hd, rfl⟩
  exact isHexDigitChar_hexDigitUpper d (hexNatDigits_lt n d hd)

theorem upperHexDigits_ne_nil (n : Nat) : upperHexDigits n ≠ [] := by
  unfold upperHexDigits
  intro h
  exact hexNatDigits_ne_nil n (List.map_eq_nil_iff.mp h)

/-- C6: mapping normalization round-trips across encodings.  For every
code point n below 0x110000, the CSS escape of the uppercase hexadecimal
form of n, pushed through the key normalization of
extract_unicode_from_css, equals the string hex(n) that
CodiconsProvider.process_mapping produces from the decimal value n, and
that string re-decodes through int(x, 16) to the same code point n, hence
to the same unicode character. -/
theorem spec_c6_roundtrip (n : Nat) (h : n < 1114112) :
    normalizeCssKey (cssUnicodeEscape n) = pythonHex n ∧
    codiconsProcessMapping [("icon", n)] = [("icon", pythonHex n)] ∧
    hexStrToNat (pythonHex n) = some n := by
  refine ⟨?_, rfl, hexStrToNat_pythonHex n⟩
  unfold cssUnicodeEscape
  rw [normalizeCssKey_backslash (upperHexDigits n) (upperHexDigits_ne_nil n)
    (upperHexDigits_isHex n), map_pyToLower_upperHex]
  rfl

/-- Witness for C6 at the concrete code point 61444 (0xF004). -/
theorem spec_c6_roundtrip_witness :
    61444 < 1114112 ∧
    (normalizeCssKey (cssUnicodeEscape 61444) = pythonHex 61444 ∧
     codiconsProcessMapping [("icon", 61444)] = [("icon", pythonHex 61444)] ∧
     hexStrToNat (pythonHex 61444) = some 61444) :=
  ⟨by decide, spec_c6_roundtrip 61444 (by decide)⟩

/-- C5: the CSS-format mapping parser of the Remix provider, applied to a
fixture containing the rule for ri-home-line with content escape ea60,
returns the mapping from home-line to 0xea60. -/
theorem spec_c5_remix_fixture :
    remixProcessMapping ".ri-home-line:before \x7b content: \"\\ea60\"; \x7d" =
      [("home-line", "0xea60")] := by
  rfl

/-- C3: the claim that the Material Design line scanner computes the same
mapping as extract_unicode_from_css with CSS_PATTERN is false, and the
specification itself directs implementers to treat the scanner as the
bug.  On a one-line rule the scanner returns the empty mapping because it
only inspects lines after the selector line, while the regex extraction
returns the icon; on the customary two-line rule with a semicolon the
scanner finds the icon while the regex, whose pattern has no provision
for the semicolon, returns nothing. -/
theorem spec_c3_mdi_divergence :
    mdProcessMapping ".mdi-home:before \x7b content: \"\\F02DC\" \x7d" = Except.ok [] ∧
    extract_unicode_from_css ".mdi-home:before \x7b content: \"\\F02DC\" \x7d"
        mdiCssPattern = [("home", "0xf02dc")] ∧
    mdProcessMapping ".mdi-home:before \x7b\n  content: \"\\F02DC\";\n\x7d" =
      Except.ok [("home", "0xf02dc")] ∧
    extract_unicode_from_css ".mdi-home:before \x7b\n  content: \"\\F02DC\";\n\x7d"
        mdiCssPattern = [] :=
  ⟨rfl, rfl, rfl, rfl⟩

/-- C9: the PREFIX values of the PROVIDERS registry are pairwise
distinct, so looking a provider up by its prefix string is unambiguous. -/
theorem spec_c9_prefixes_distinct : (PROVIDERS.map (fun p => p.2.pfx)).Nodup := by
  decide

/-- C4 counterexample: the Phosphor and Remix providers return the
constant master even in the world where every network fetch fails, so it
is false that every registered provider queries the network and fails
with UpstreamUnavailable on network error. -/
theorem spec_c4_counterexample :
    phosphorGetLatestVersion deadNetWorld = Except.ok "master" ∧
    remixGetLatestVersion deadNetWorld = Except.ok "master" :=
  ⟨rfl, rfl⟩

/-- C4 amended: the FontAwesome, Material Design and Codicons providers
query their release or tag endpoint and fail when the fetch fails or
when the response lacks the expected shape, while the Phosphor and Remix
providers return the constant master in every world, performing no
fetch. -/
theorem spec_c4_amended :
    (∀ w : NetWorld, phosphorGetLatestVersion w = Except.ok "master" ∧
      remixGetLatestVersion w = Except.ok "master") ∧
    faGetLatestVersion deadNetWorld =
      Except.error (PyErr.valueError "UpstreamUnavailable") ∧
    mdGetLatestVersion deadNetWorld =
      Except.error (PyErr.valueError "UpstreamUnavailable") ∧
    codiconsGetLatestVersion deadNetWorld =
      Except.error (PyErr.valueError "UpstreamUnavailable") ∧
    faGetLatestVersion emptyObjNetWorld = Except.error (PyErr.keyError "tag_name") ∧
    mdGetLatestVersion emptyObjNetWorld = Except.error (PyErr.typeError "not a list") ∧
    codiconsGetLatestVersion emptyObjNetWorld = Except.error (PyErr.keyError "tag_name") :=
  ⟨fun w => ⟨rfl, rfl⟩, rfl, rfl, rfl, rfl, rfl, rfl⟩

/-! ## Claim C2: canonicality of produced code-point values -/

theorem mem_dictInsert {m : List (String × String)} {k v : String} {e : String × String}
    (h : e ∈ dictInsert m k v) : e = (k, v) ∨ e ∈ m := by
  unfold dictInsert at h
  by_cases hc : m.any (fun p => p.1 == k) = true
  · rw [if_pos hc] at h
    rcases List.mem_map.mp h with ⟨q, hq, hqe⟩
    by_cases hk : (q.1 == k) = true
    · rw [if_pos hk] at hqe
      exact Or.inl hqe.symm
    · rw [if_neg hk] at hqe
      exact Or.inr (hqe ▸ hq)
  · rw [if_neg hc] at h
    rcases List.mem_append.mp h with h2 | h2
    · exact Or.inr h2
    · simp only [List.mem_singleton] at h2
      exact Or.inl h2

theorem isLowerHex_hexDigitLower : ∀ d < 16, isLowerHexDigitChar (hexDigitLower d) = true := by
  decide

theorem all_isLowerHex_lowerHexDigits (n : Nat) :
    (lowerHexDigits n).all isLowerHexDigitChar = true := by
  rw [List.all_eq_true]
  intro c hc
  rcases List.mem_map.mp hc with ⟨d, hd, rfl⟩
  exact isLowerHex_hexDigitLower d (hexNatDigits_lt n d hd)

theorem isCanonicalHexStr_pythonHex (n : Nat) : isCanonicalHexStr (pythonHex n) = true := by
  have h1 : (pythonHex n).data = '0' :: 'x' :: lowerHexDigits n := rfl
  unfold isCanonicalHexStr
  rw [h1]
  simp only [startsWithList, List.drop_succ_cons, List.drop_zero]
  simp [List.isEmpty_iff, lowerHexDigits_ne_nil n, all_isLowerHex_lowerHexDigits n]

theorem codicons_vals_canonical (data : List (String × Nat)) :
    ∀ (acc : List (String × String)),
    (∀ e ∈ acc, isCanonicalHexStr e.2 = true) →
    ∀ e ∈ data.foldl (fun m p => dictInsert m (pyLower p.1) (pythonHex p.2)) acc,
      isCanonicalHexStr e.2 = true := by
  induction data with
  | nil => intro acc hacc e he; exact hacc e he
  | cons p rest ih =>
    intro acc hacc e he
    simp only [List.foldl_cons] at he
    refine ih _ ?_ e he
    intro e2 he2
    rcases mem_dictInsert he2 with h | h
    · rw [h]
      exact isCanonicalHexStr_pythonHex p.2
    · exact hacc e2 h

theorem phosphor_tags_canonical (tags : List String) (g : Nat) :
    ∀ (acc : List (String × String)),
    (∀ e ∈ acc, isCanonicalHexStr e.2 = true) →
    ∀ e ∈ tags.foldl (fun m2 tag => dictInsert m2 tag (pythonHex g)) acc,
      isCanonicalHexStr e.2 = true := by
  induction tags with
  | nil => intro acc hacc e he; exact hacc e he
  | cons t rest ih =>
    intro acc hacc e he
    simp only [List.foldl_cons] at he
    refine ih _ ?_ e he
    intro e2 he2
    rcases mem_dictInsert he2 with h | h
    · rw [h]
      exact isCanonicalHexStr_pythonHex g
    · exact hacc e2 h

theorem phosphor_icons_canonical (icons : List PhosphorIcon) :
    ∀ (acc : List (String × String)),
    (∀ e ∈ acc, isCanonicalHexStr e.2 = true) →
    ∀ e ∈ icons.foldl
        (fun m icon => icon.tags.foldl (fun m2 tag => dictInsert m2 tag (pythonHex icon.grid)) m)
        acc,
      isCanonicalHexStr e.2 = true := by
  induction icons with
  | nil => intro acc hacc e he; exact hacc e he
  | cons icon rest ih =>
    intro acc hacc e he
    simp only [List.foldl_cons] at he
    exact ih _ (phosphor_tags_canonical icon.tags icon.grid acc hacc) e he

theorem faStyle_fold_inv (style : String) (full : List (String × FAIconInfo)) :
    ∀ (data : List (String × FAIconInfo)) (acc : List (String × String)),
    (∀ p ∈ data, p ∈ full) →
    (∀ e ∈ acc, ∃ info : FAIconInfo, (e.1, info) ∈ full ∧
      info.styles.contains style = true ∧ e.2 = info.unicode) →
    ∀ e ∈ data.foldl
        (fun m p => if p.2.styles.contains style then dictInsert m p.1 p.2.unicode else m)
        acc,
      ∃ info : FAIconInfo, (e.1, info) ∈ full ∧
        info.styles.contains style = true ∧ e.2 = info.unicode := by
  intro data
  induction data with
  | nil => intro acc _ hacc e he; exact hacc e he
  | cons p rest ih =>
    intro acc hsub hacc e he
    simp only [List.foldl_cons] at he
    refine ih _ (fun q hq => hsub q (List.mem_cons_of_mem p hq)) ?_ e he
    intro e2 he2
    by_cases hcont : p.2.styles.contains style = true
    · rw [if_pos hcont] at he2
      rcases mem_dictInsert he2 with h | h
      · refine ⟨p.2, ?_, hcont, ?_⟩
        · rw [h]
          have hp := hsub p (List.mem_cons_self p rest)
          simpa using hp
        · rw [h]
      · exact hacc e2 h
    · rw [if_neg hcont] at he2
      exact hacc e2 he2

/-- C2 counterexample: FontAwesomeRegularProvider.process_mapping copies
the upstream unicode field verbatim, so on a well-formed icons.json entry
whose upstream encoding is the bare hexadecimal f004 the produced value
has no 0x prefix, refuting the claim that every provider emits canonical
lowercase 0x-prefixed values. -/
theorem spec_c2_counterexample :
    faRegularProcessMapping [("heart", ⟨["regular"], "f004"⟩)] = [("heart", "f004")] ∧
    isCanonicalHexStr "f004" = false :=
  ⟨rfl, rfl⟩

/-- C2 amended: the Codicons and Phosphor providers, which build values
with hex(int), always produce canonical lowercase 0x-prefixed strings,
and the CSS-extraction normalization produces a canonical string from any
captured backslash escape over hexadecimal digits; the FontAwesome
providers instead return the upstream unicode field verbatim (for the
regular style; solid and brands are identical), which is not
0x-prefixed. -/
theorem spec_c2_amended :
    (∀ (data : List (String × Nat)) (e : String × String),
      e ∈ codiconsProcessMapping data → isCanonicalHexStr e.2 = true) ∧
    (∀ (iconSets : List (List PhosphorIcon)) (m : List (String × String))
        (e : String × String),
      phosphorProcessMapping iconSets = Except.ok m → e ∈ m →
        isCanonicalHexStr e.2 = true) ∧
    (∀ (l : List Char), l ≠ [] → (∀ c ∈ l, isHexDigitChar c = true) →
      isCanonicalHexStr (normalizeCssKey ⟨'\\' :: l⟩) = true) ∧
    (∀ (data : List (String × FAIconInfo)) (e : String × String),
      e ∈ faRegularProcessMapping data →
        ∃ info : FAIconInfo, (e.1, info) ∈ data ∧
          info.styles.contains "regular" = true ∧ e.2 = info.unicode) := by
  refine ⟨?_, ?_, ?_, ?_⟩
  · intro data e he
    exact codicons_vals_canonical data []
      (fun e2 he2 => absurd he2 (List.not_mem_nil e2)) e he
  · intro iconSets m e hok he
    unfold phosphorProcessMapping at hok
    cases iconSets with
    | nil => exact absurd hok (by simp [pyIndex])
    | cons s0 srest =>
      simp only [pyIndex, List.get?] at hok
      rcases Except.ok.inj hok with rfl
      exact phosphor_icons_canonical s0 []
        (fun e2 he2 => absurd he2 (List.not_mem_nil e2)) e he
  · intro l hne hhex
    rw [normalizeCssKey_backslash l hne hhex]
    have h1 : (String.mk ('0' :: 'x' :: l.map pyToLowerChar)).data =
        '0' :: 'x' :: l.map pyToLowerChar := rfl
    unfold isCanonicalHexStr
    rw [h1]
    simp only [startsWithList, List.drop_succ_cons, List.drop_zero]
    have hne2 : l.map pyToLowerChar ≠ [] := by
      intro hcon
      exact hne (List.map_eq_nil_iff.mp hcon)
    have hall : (l.map pyToLowerChar).all isLowerHexDigitChar = true := by
      rw [List.all_eq_true]
      intro c hc
      rcases List.mem_map.mp hc with ⟨d, hd, rfl⟩
      exact isLowerHex_pyToLower d (hhex d hd)
    simp [List.isEmpty_iff, hne2, hall]
  · intro data e he
    exact faStyle_fold_inv "regular" data data [] (fun p hp => hp)
      (fun e2 he2 => absurd he2 (List.not_mem_nil e2)) e he

/-- Witness for the amended C2 theorem at concrete inputs: a Codicons
entry with decimal 61444, a Phosphor icon on grid 983, the captured CSS
escape EA60, and a FontAwesome regular entry with raw value f004. -/
theorem spec_c2_amended_witness :
    isCanonicalHexStr ((("home", pythonHex 61444) : String × String)).2 = true ∧
    isCanonicalHexStr ((("house", pythonHex 983) : String × String)).2 = true ∧
    isCanonicalHexStr (normalizeCssKey ⟨'\\' :: ['E', 'A', '6', '0']⟩) = true ∧
    (∃ info : FAIconInfo,
      ((("heart", "f004") : String × String).1, info) ∈
        [("heart", (⟨["regular"], "f004"⟩ : FAIconInfo))] ∧
      info.styles.contains "regular" = true ∧
      (("heart", "f004") : String × String).2 = info.unicode) := by
  refine ⟨?_, ?_, ?_, ?_⟩
  · exact spec_c2_amended.1 [("home", 61444)] ("home", pythonHex 61444) (by decide)
  · exact spec_c2_amended.2.1 [[⟨983, ["house"]⟩]] [("house", pythonHex 983)]
      ("house", pythonHex 983) rfl (by decide)
  · exact spec_c2_amended.2.2.1 ['E', 'A', '6', '0'] (by decide) (by decide)
  · exact spec_c2_amended.2.2.2 [("heart", ⟨["regular"], "f004"⟩)] ("heart", "f004")
      (by decide)

/-- C8 counterexample: the svg query performs no missing-icon detection;
in the world whose endpoint reports a missing icon it returns the body
with an empty warning list, while the claim requires a non-fatal warning
for both batch queries. -/
theorem spec_c8_counterexample :
    svgQuery missingIconWorld ["mdi:ghost"] none none none none none none =
      Except.ok ("404 not found", []) :=
  rfl

/-- C8 amended: only the CSS batch query scans its response for missing
icons, reporting them through a non-fatal warning while still returning
the response; the SVG query returns its response unchanged and never
emits a warning, whatever the world and arguments. -/
theorem spec_c8_amended :
    cssQuery missingIconWorld ["mdi", "nonexistent"] none none none none none none none
        none none =
      Except.ok ("/* Could not find icon: mdi:nonexistent */", [["mdi:nonexistent"]]) ∧
    (∀ (w : QueryWorld) (key : List String) (c h wd f r : Option String)
        (b : Option Bool) (out : String × List (List String)),
      svgQuery w key c h wd f r b = Except.ok out → out.2 = []) := by
  constructor
  · rfl
  · intro w key c h wd f r b out hout
    unfold svgQuery at hout
    split at hout
    · exact Except.noConfusion hout
    · split at hout
      · exact Except.noConfusion hout
      · injection hout with h2
        rw [← h2]

/-- Witness for the amended C8 theorem: the svg part instantiated at the
concrete missing-icon world. -/
theorem spec_c8_amended_witness :
    ((("404 not found", []) : String × List (List String))).2 = [] :=
  spec_c8_amended.2 missingIconWorld ["ph:ghost"] none none none none none none
    ("404 not found", []) rfl
